import Mathlib

/-!
# Strided pixel iterators: `boost/gil/step_iterator.hpp`

A shallow embedding of the step iterator of GIL and of the resolver
`make_step_iterator`, followed by the properties of the specification that are
established on it.

Conventions of the embedding.

* `std::ptrdiff_t` is embedded as `Int`, and C++ integer division as `Int.tdiv`
  (truncation toward zero).  Signed overflow and pointer arithmetic that leaves
  the caller's buffer are undefined behaviour in the source language; they are
  outside the embedding.
* A member function that mutates its receiver (`advance`, `increment`,
  `set_step`, `byte_advance`) is embedded as a function returning the updated
  value.
* The class template `step_iterator_adaptor<Derived, Iterator, SFn>` is embedded at
  its only instantiation in the sources, `SFn = byte_step_fn<Iterator>` and
  `Derived = byte_addressable_step_iterator<Iterator>`.
* The overload set of `make_step_iterator_impl`, selected at compile time by
  `is_iterator_adaptor` and by the argument type, is embedded as a match on a
  closed set of cursor shapes (`Cursor`).

The two-dimensional point `boost/geometry/geometries/point_xy.hpp` is embedded in
the namespace `Geometry`.
-/

namespace Geometry

/-! ## `point_xy` (lines 30-108 of `point_xy.hpp`) -/

/-- The interface of the base class `model::point<CoordinateType, 2, CoordinateSystem>`
that `point_xy` calls: the constructor from two values and the member templates
`get<K>()` and `set<K>(v)`.  The base class is declared in `point.hpp`, not among the
sources; it is a parameter of the embedding. -/
class PointBase (CoordinateType : outParam Type) (P : Type) where
  /-- The constructor `point(v0, v1)`. -/
  construct : CoordinateType → CoordinateType → P
  /-- The member template `get<K>()`. -/
  get : Fin 2 → P → CoordinateType
  /-- The member template `set<K>(v)`; returns the updated point. -/
  set : Fin 2 → CoordinateType → P → P

/-- The behaviour expected of the base class: the constructor stores its two
arguments as coordinates 0 and 1, `set<K>` makes `get<K>` return the value set, and
`set<K>` leaves the other coordinate as it was. -/
structure PointBase.Lawful (CoordinateType : Type) (P : Type) [PointBase CoordinateType P] :
    Prop where
  get_construct_zero : ∀ v0 v1 : CoordinateType,
    PointBase.get 0 (PointBase.construct v0 v1 : P) = v0
  get_construct_one : ∀ v0 v1 : CoordinateType,
    PointBase.get 1 (PointBase.construct v0 v1 : P) = v1
  get_set_same : ∀ (K : Fin 2) (v : CoordinateType) (p : P),
    PointBase.get K (PointBase.set K v p) = v
  get_set_other : ∀ (K J : Fin 2) (v : CoordinateType) (p : P), J ≠ K →
    PointBase.get J (PointBase.set K v p) = (PointBase.get J p : CoordinateType)

/-- A base class to instantiate the parameter with: two stored coordinate values. -/
structure stored_point (CoordinateType : Type) where
  /-- The value of coordinate 0. -/
  v0 : CoordinateType
  /-- The value of coordinate 1. -/
  v1 : CoordinateType
deriving DecidableEq

/-- The operations of `stored_point`: reading and writing the stored value of index `K`. -/
instance instStoredPoint (CoordinateType : Type) :
    PointBase CoordinateType (stored_point CoordinateType) where
  construct := fun v0 v1 => ⟨v0, v1⟩
  get := fun K p => if K = 0 then p.v0 else p.v1
  set := fun K v p => if K = 0 then { p with v0 := v } else { p with v1 := v }

/-- The class `point_xy<CoordinateType, CoordinateSystem>`: it derives from
`model::point<CoordinateType, 2, CoordinateSystem>` and adds no data member. -/
structure point_xy (P : Type) where
  /-- The base-class subobject. -/
  point : P

namespace point_xy

variable {CoordinateType P : Type}

/-- The constructor with x/y values (lines 40-43): `model::point(x, y)`. -/
def make [PointBase CoordinateType P] (x y : CoordinateType) : point_xy P :=
  ⟨PointBase.construct x y⟩

/-- The getter `x()` (lines 45-47): `this->template get<0>()`. -/
def x [PointBase CoordinateType P] (p : point_xy P) : CoordinateType :=
  PointBase.get 0 p.point

/-- The getter `y()` (lines 49-51): `this->template get<1>()`. -/
def y [PointBase CoordinateType P] (p : point_xy P) : CoordinateType :=
  PointBase.get 1 p.point

/-- The setter `x(v)` (lines 53-55): `this->template set<0>(v)`. -/
def set_x [PointBase CoordinateType P] (p : point_xy P) (v : CoordinateType) : point_xy P :=
  ⟨PointBase.set 0 v p.point⟩

/-- The setter `y(v)` (lines 57-59): `this->template set<1>(v)`. -/
def set_y [PointBase CoordinateType P] (p : point_xy P) (v : CoordinateType) : point_xy P :=
  ⟨PointBase.set 1 v p.point⟩

end point_xy

namespace traits.access

variable {CoordinateType P : Type}

/-- The static member `traits::access<point_xy, Dimension>::get` (lines 97-101):
`p.template get<Dimension>()`. -/
def get [PointBase CoordinateType P] (Dimension : Fin 2) (p : point_xy P) : CoordinateType :=
  PointBase.get Dimension p.point

/-- The static member `traits::access<point_xy, Dimension>::set` (lines 103-107):
`p.template set<Dimension>(value)`; returns the updated point. -/
def set [PointBase CoordinateType P] (Dimension : Fin 2) (p : point_xy P)
    (value : CoordinateType) : point_xy P :=
  ⟨PointBase.set Dimension value p.point⟩

end traits.access

end Geometry

namespace Gil

/-! ## Base iterators -/

/-- The byte-level interface that `step_iterator.hpp` requires of its base
iterator type (`ByteAdvanceableIteratorConcept`): the default constructor
`Iterator()` and the free functions `byte_step`, `byte_distance`,
`byte_advance` and `byte_advanced`.  The header only calls them; they are a
parameter of the embedding. -/
class ByteAdvanceableIterator (I : Type) where
  /-- The default-constructed base iterator, `Iterator()`. -/
  construct : I
  /-- The natural distance in bytes between adjacent elements, `byte_step(it)`. -/
  byte_step : I → Int
  /-- The raw distance in bytes from `it1` to `it2`, `byte_distance(it1, it2)`. -/
  byte_distance : I → I → Int
  /-- The iterator moved by `d` bytes, `byte_advance(it, d)` (in place in the source). -/
  byte_advance : I → Int → I
  /-- A copy of the iterator moved by `d` bytes, `byte_advanced(it, d)`. -/
  byte_advanced : I → Int → I

export ByteAdvanceableIterator (byte_step byte_distance byte_advance byte_advanced)

/-- A plain base position: the byte offset of a cursor into the caller's buffer. -/
abbrev Position : Type := Int

/-- Modelled from the spec: the byte-level functions of a plain (non-adaptor)
position, whose overloads are declared in `pixel_iterator.hpp`, not among the
sources.  Following the spec, `rawDistance(posA, posB)` is the number of raw
bytes from `posA` to `posB` (the scenario of a cursor moved from byte 0 to
byte 30 has `distance(start, cursor)` positive), advancing mutates the position
by the given number of raw units, and the element size is one byte. -/
instance instPosition : ByteAdvanceableIterator Position where
  construct := 0
  byte_step := fun _ => 1
  byte_distance := fun p1 p2 => p2 - p1
  byte_advance := fun p d => p + d
  byte_advanced := fun p d => p + d

/-! ## `byte_step_fn` (lines 132-146) -/

/-- The struct `byte_step_fn<Iterator>`: the policy object holding the step in bytes. -/
structure byte_step_fn (I : Type) where
  /-- The data member `_step`. -/
  _step : Int
deriving DecidableEq

namespace byte_step_fn

variable {I : Type}

/-- The constructor `byte_step_fn(difference_type step = byte_step(Iterator()))`
called without an argument. -/
def construct [ByteAdvanceableIterator I] : byte_step_fn I :=
  ⟨byte_step (ByteAdvanceableIterator.construct : I)⟩

/-- The member `difference`: `byte_distance(it1,it2)/_step`. -/
def difference [ByteAdvanceableIterator I] (f : byte_step_fn I) (it1 it2 : I) : Int :=
  Int.tdiv (byte_distance it1 it2) f._step

/-- The member `advance`: `byte_advance(it,d*_step)`; returns the advanced iterator. -/
def advance [ByteAdvanceableIterator I] (f : byte_step_fn I) (it : I) (d : Int) : I :=
  byte_advance it (d * f._step)

/-- The member `step`. -/
def step (f : byte_step_fn I) : Int := f._step

/-- The member `set_step`: `_step=step`. -/
def set_step (_f : byte_step_fn I) (step : Int) : byte_step_fn I := ⟨step⟩

end byte_step_fn

/-! ## `step_iterator_adaptor` and `byte_addressable_step_iterator` -/

/-- The class `byte_addressable_step_iterator<Iterator>` with the data of its parent
`step_iterator_adaptor`: the wrapped base iterator (`base()`) and the policy
object `_step_fn`. -/
structure byte_addressable_step_iterator (I : Type) where
  /-- The wrapped iterator, read by `base()` and `base_reference()`. -/
  base : I
  /-- The protected member `_step_fn` of `step_iterator_adaptor`. -/
  _step_fn : byte_step_fn I
deriving DecidableEq

namespace byte_addressable_step_iterator

variable {I : Type}

/-- The default constructor of `byte_addressable_step_iterator`: `parent_t(Iterator())`,
whose second argument defaults to `SFn()` (lines 61 and 161). -/
def construct [ByteAdvanceableIterator I] : byte_addressable_step_iterator I :=
  ⟨ByteAdvanceableIterator.construct, byte_step_fn.construct⟩

/-- The constructor `byte_addressable_step_iterator(Iterator it, std::ptrdiff_t byte_step)`
(line 162). -/
def make (it : I) (byte_step : Int) : byte_addressable_step_iterator I :=
  ⟨it, ⟨byte_step⟩⟩

/-- The member `set_step`: `this->_step_fn.set_step(byte_step)` (line 171). -/
def set_step (p : byte_addressable_step_iterator I) (byte_step : Int) :
    byte_addressable_step_iterator I :=
  { p with _step_fn := p._step_fn.set_step byte_step }

end byte_addressable_step_iterator

namespace step_iterator_adaptor

variable {I : Type}

/-- The member `step()`: `_step_fn.step()` (line 63). -/
def step (p : byte_addressable_step_iterator I) : Int := p._step_fn.step

/-- The hook `increment`: `_step_fn.advance(this->base_reference(),1)` (line 70). -/
def increment [ByteAdvanceableIterator I] (p : byte_addressable_step_iterator I) :
    byte_addressable_step_iterator I :=
  { p with base := p._step_fn.advance p.base 1 }

/-- The hook `decrement`: `_step_fn.advance(this->base_reference(),-1)` (line 71). -/
def decrement [ByteAdvanceableIterator I] (p : byte_addressable_step_iterator I) :
    byte_addressable_step_iterator I :=
  { p with base := p._step_fn.advance p.base (-1) }

/-- The hook `advance`: `_step_fn.advance(this->base_reference(),d)` (line 72). -/
def advance [ByteAdvanceableIterator I] (p : byte_addressable_step_iterator I) (d : Int) :
    byte_addressable_step_iterator I :=
  { p with base := p._step_fn.advance p.base d }

/-- The hook `distance_to`:
`_step_fn.difference(this->base_reference(),it.base_reference())` (line 73). -/
def distance_to [ByteAdvanceableIterator I] (p it : byte_addressable_step_iterator I) : Int :=
  p._step_fn.difference p.base it.base

/-- The relational `operator>` (lines 78-81). -/
def operator_gt [LinearOrder I] (p1 p2 : byte_addressable_step_iterator I) : Bool :=
  if step p1 > 0 then decide (p1.base > p2.base) else decide (p1.base < p2.base)

/-- The relational `operator<` (lines 83-86). -/
def operator_lt [LinearOrder I] (p1 p2 : byte_addressable_step_iterator I) : Bool :=
  if step p1 > 0 then decide (p1.base < p2.base) else decide (p1.base > p2.base)

/-- The relational `operator>=` (lines 88-91). -/
def operator_ge [LinearOrder I] (p1 p2 : byte_addressable_step_iterator I) : Bool :=
  if step p1 > 0 then decide (p1.base ≥ p2.base) else decide (p1.base ≤ p2.base)

/-- The relational `operator<=` (lines 93-96). -/
def operator_le [LinearOrder I] (p1 p2 : byte_addressable_step_iterator I) : Bool :=
  if step p1 > 0 then decide (p1.base ≤ p2.base) else decide (p1.base ≥ p2.base)

/-- The `operator==` (lines 98-101). -/
def operator_eq [LinearOrder I] (p1 p2 : byte_addressable_step_iterator I) : Bool :=
  decide (p1.base = p2.base)

/-- The `operator!=` (lines 103-106). -/
def operator_ne [LinearOrder I] (p1 p2 : byte_addressable_step_iterator I) : Bool :=
  decide (p1.base ≠ p2.base)

/-- The constructor `step_iterator_adaptor(const Iterator& it, SFn step_fn=SFn())`
(line 61) called with the iterator alone: the policy object is default-constructed. -/
def make_default [ByteAdvanceableIterator I] (it : I) : byte_addressable_step_iterator I :=
  ⟨it, byte_step_fn.construct⟩

end step_iterator_adaptor

/-- The overloads of `byte_step`, `byte_distance`, `byte_advance` and `byte_advanced`
for `byte_addressable_step_iterator<Iterator>` (lines 223-243): a step iterator is
itself byte-advanceable, and its byte-level functions act on `base()`. -/
instance instStepIterator (I : Type) [ByteAdvanceableIterator I] :
    ByteAdvanceableIterator (byte_addressable_step_iterator I) where
  construct := byte_addressable_step_iterator.construct
  byte_step := fun p => step_iterator_adaptor.step p
  byte_distance := fun p1 p2 => byte_distance p1.base p2.base
  byte_advance := fun p byteDiff => { p with base := byte_advance p.base byteDiff }
  byte_advanced := fun p byteDiff =>
    byte_addressable_step_iterator.make (byte_advanced p.base byteDiff)
      (step_iterator_adaptor.step p)

/-! ## Element metadata (lines 182-183 and 207-217) -/

/-- The metafunctions that report the element metadata of an iterator type:
`color_space_type`, `channel_mapping_type`, `channel_type`, `is_planar` and
`iterator_is_mutable`.  For a base iterator type they are declared outside the
sources; they are a parameter of the embedding. -/
class PixelBasedTraits (I : Type) where
  /-- The type `color_space_type<I>::type`. -/
  color_space_type : Type
  /-- The type `channel_mapping_type<I>::type`. -/
  channel_mapping_type : Type
  /-- The type `channel_type<I>::type`. -/
  channel_type : Type
  /-- The compile-time boolean `is_planar<I>`. -/
  is_planar : Bool
  /-- The compile-time boolean `iterator_is_mutable<I>`. -/
  iterator_is_mutable : Bool

/-- The specialisations for `byte_addressable_step_iterator<Iterator>`: each one
derives from the same metafunction applied to `Iterator` (lines 182-183, 207-217). -/
instance instStepIteratorTraits (I : Type) [PixelBasedTraits I] :
    PixelBasedTraits (byte_addressable_step_iterator I) where
  color_space_type := PixelBasedTraits.color_space_type I
  channel_mapping_type := PixelBasedTraits.channel_mapping_type I
  channel_type := PixelBasedTraits.channel_type I
  is_planar := PixelBasedTraits.is_planar I
  iterator_is_mutable := PixelBasedTraits.iterator_is_mutable I

/-! ## `iterator_add_deref` (lines 261-269) -/

namespace iterator_add_deref

/-- The static member `make` of
`iterator_add_deref<byte_addressable_step_iterator<Iterator>,Deref>` (line 268):
`type(iterator_add_deref<Iterator, Deref>::make(it.base(),d),it.step())`.  The
`make` of the base iterator type, declared outside the sources, is the parameter
`base_make`; `J` is its result type `iterator_add_deref<Iterator, Deref>::type`. -/
def make {I Deref J : Type} (base_make : I → Deref → J)
    (it : byte_addressable_step_iterator I) (d : Deref) : byte_addressable_step_iterator J :=
  byte_addressable_step_iterator.make (base_make it.base d) (step_iterator_adaptor.step it)

end iterator_add_deref

/-! ## `make_step_iterator` (lines 271-314) -/

/-- The closed set of iterator shapes that the tag dispatch of `make_step_iterator`
distinguishes.

* `plain`: a base iterator that is not an adaptor (`is_iterator_adaptor` is `mpl::false_`).
* `step`: a `byte_addressable_step_iterator` over any cursor.
* `compound`: any other iterator adaptor around `base`, for instance a dereference
  adaptor; `DFn` identifies the type of its transform and `deref_fn` is the
  run-time state of the transform object it holds. -/
inductive Cursor where
  | plain (p : Position)
  | step (it : byte_addressable_step_iterator Cursor)
  | compound (DFn : Nat) (deref_fn : Int) (base : Cursor)

namespace Cursor

/-- The metafunction `is_iterator_adaptor` (lines 190-191 for the step iterator). -/
def is_iterator_adaptor : Cursor → Bool
  | plain _ => false
  | step _ => true
  | compound _ _ _ => true

/-- The number of `byte_addressable_step_iterator` layers in an adaptor chain. -/
def stride_layers : Cursor → Nat
  | plain _ => 0
  | step ⟨b, _⟩ => stride_layers b + 1
  | compound _ _ b => stride_layers b

/-- A chain of compound adaptors around `inner`, outermost first; each layer is given
by the type of its transform and the state of its transform object. -/
def wrap : List (Nat × Int) → Cursor → Cursor
  | [], inner => inner
  | (DFn, deref_fn) :: chain, inner => compound DFn deref_fn (wrap chain inner)

/-- The step iterator located by traversing the chain of compound adaptors from the
outside, if there is one. -/
def locate_step : Cursor → Option (byte_addressable_step_iterator Cursor)
  | plain _ => none
  | step it => some it
  | compound _ _ b => locate_step b

end Cursor

namespace detail

/-- The overload of `make_step_iterator_impl` tagged `mpl::false_` (lines 279-283):
`byte_addressable_step_iterator<I>(it, step)`. -/
def make_step_iterator_impl_false (it : Cursor) (step : Int) : Cursor :=
  Cursor.step (byte_addressable_step_iterator.make it step)

/-- The overload of `make_step_iterator_impl` for a `byte_addressable_step_iterator`
argument (lines 291-295): `byte_addressable_step_iterator<BaseIt>(it.base(), step)`. -/
def make_step_iterator_impl_step (it : byte_addressable_step_iterator Cursor) (step : Int) :
    Cursor :=
  Cursor.step (byte_addressable_step_iterator.make it.base step)

end detail

/-- The function `make_step_iterator` (lines 311-314) with the overloads of
`make_step_iterator_impl` it dispatches to.

The overload for a compound iterator (lines 285-289) is
`return make_step_iterator(it.base(), step);` with the declared return type
`dynamic_x_step_type<I>::type`.  The conversion of the re-strided base to that
type is declared outside the sources and is the parameter `convert`: it is
given the transform type of `I` and the value of the returned expression,
which is all that a conversion at a `return` statement can see. -/
def make_step_iterator (convert : Nat → Cursor → Cursor) : Cursor → Int → Cursor
  | Cursor.plain p, step => detail.make_step_iterator_impl_false (Cursor.plain p) step
  | Cursor.step it, step => detail.make_step_iterator_impl_step it step
  | Cursor.compound DFn _ base, step => convert DFn (make_step_iterator convert base step)

/-- Modelled from the spec: the conversion that "re-wraps the outer adaptor's
transform" around the re-strided inner cursor (the converting constructor itself is
declared in `pixel_iterator_adaptor.hpp`, not among the sources).  It rebuilds an
adaptor of the same transform type; the transform object is a freshly
constructed one, written as state `0`. -/
def rewrap (DFn : Nat) (inner : Cursor) : Cursor := Cursor.compound DFn 0 inner

/-! ## Reference notions taken from the words of the specification -/

/-- The quotient of `raw` by `step` "truncated toward zero", written from the words
of the specification rather than from the source: the quotient of the magnitudes,
rounded down, carrying the sign of `raw` times the sign of `step`. -/
def truncated_quotient (raw step : Int) : Int :=
  Int.sign raw * Int.sign step * ((raw.natAbs / step.natAbs : Nat) : Int)

/-! ## Auxiliary lemmas -/

open step_iterator_adaptor

theorem tdiv_eq_truncated_quotient (raw step : Int) :
    Int.tdiv raw step = truncated_quotient raw step := by
  unfold truncated_quotient
  obtain ⟨a, rfl | rfl⟩ := Int.eq_nat_or_neg raw <;>
  obtain ⟨b, rfl | rfl⟩ := Int.eq_nat_or_neg step <;>
  rcases Nat.eq_zero_or_pos a with rfl | ha <;>
  rcases Nat.eq_zero_or_pos b with rfl | hb <;>
  simp [Int.sign_eq_one_of_pos, Int.sign_eq_neg_one_of_neg, Int.natAbs_neg, *] <;>
  rfl

theorem base_advance (it : byte_addressable_step_iterator Position) (d : Int) :
    (advance it d).base = it.base + d * step it := rfl

theorem step_advance (it : byte_addressable_step_iterator Position) (d : Int) :
    step (advance it d) = step it := rfl

theorem base_increment (it : byte_addressable_step_iterator Position) :
    (increment it).base = it.base + step it := by
  show it.base + 1 * it._step_fn._step = it.base + it._step_fn._step
  rw [Int.one_mul]

theorem step_increment (it : byte_addressable_step_iterator Position) :
    step (increment it) = step it := rfl

theorem base_iterate_increment (it : byte_addressable_step_iterator Position) (k : Nat) :
    (increment^[k] it).base = it.base + (k : Int) * step it ∧
      step (increment^[k] it) = step it := by
  induction k generalizing it with
  | zero => simp
  | succ k ih =>
    rw [Function.iterate_succ_apply]
    obtain ⟨hb, hs⟩ := ih (increment it)
    rw [hb, hs, base_increment, step_increment]
    refine ⟨?_, rfl⟩
    push_cast
    ring

theorem make_step_iterator_of_not_adaptor (convert : Nat → Cursor → Cursor) (it : Cursor)
    (step : Int) (h : it.is_iterator_adaptor = false) :
    make_step_iterator convert it step = detail.make_step_iterator_impl_false it step := by
  cases it with
  | plain p => rfl
  | step it => cases h
  | compound DFn d base => cases h

theorem make_step_iterator_step (convert : Nat → Cursor → Cursor) (b : Cursor) (S1 S2 : Int) :
    make_step_iterator convert (Cursor.step ⟨b, ⟨S1⟩⟩) S2 = Cursor.step ⟨b, ⟨S2⟩⟩ := rfl

theorem foldl_make_step_iterator_step (convert : Nat → Cursor → Cursor) (b : Cursor)
    (rest : List Int) (S : Int) :
    rest.foldl (make_step_iterator convert) (Cursor.step ⟨b, ⟨S⟩⟩)
      = Cursor.step ⟨b, ⟨(S :: rest).getLast (List.cons_ne_nil S rest)⟩⟩ := by
  induction rest generalizing S with
  | nil => rfl
  | cons S2 rest ih =>
    rw [List.foldl_cons, make_step_iterator_step, ih S2, List.getLast_cons_cons]

theorem make_step_iterator_compound_congr (convert : Nat → Cursor → Cursor) (DFn : Nat)
    (d1 d2 : Int) (c : Cursor) (S : Int) :
    make_step_iterator convert (Cursor.compound DFn d1 c) S
      = make_step_iterator convert (Cursor.compound DFn d2 c) S := rfl

theorem locate_step_wrap (chain : List (Nat × Int)) (inner : Cursor) :
    (Cursor.wrap chain inner).locate_step = inner.locate_step := by
  induction chain with
  | nil => rfl
  | cons layer chain ih => exact ih

theorem stride_layers_wrap (chain : List (Nat × Int)) (inner : Cursor) :
    (Cursor.wrap chain inner).stride_layers = inner.stride_layers := by
  induction chain with
  | nil => rfl
  | cons layer chain ih => exact ih

theorem make_step_iterator_wrap (convert : Nat → Cursor → Cursor)
    (hconv : ∀ DFn c, ∃ d, convert DFn c = Cursor.compound DFn d c)
    (chain : List (Nat × Int)) (inner : Cursor) (S : Int) :
    ∃ chain2 : List (Nat × Int), chain2.map Prod.fst = chain.map Prod.fst ∧
      make_step_iterator convert (Cursor.wrap chain inner) S
        = Cursor.wrap chain2 (make_step_iterator convert inner S) := by
  induction chain with
  | nil => exact ⟨[], rfl, rfl⟩
  | cons layer chain ih =>
    obtain ⟨chain2, hmap, hres⟩ := ih
    obtain ⟨DFn, deref_fn⟩ := layer
    obtain ⟨d, hd⟩ := hconv DFn (make_step_iterator convert (Cursor.wrap chain inner) S)
    refine ⟨(DFn, d) :: chain2, ?_, ?_⟩
    · simp only [List.map_cons, hmap]
    · show convert DFn (make_step_iterator convert (Cursor.wrap chain inner) S) = _
      rw [hd, hres]
      rfl

theorem rewrap_wraps (DFn : Nat) (c : Cursor) : ∃ d, rewrap DFn c = Cursor.compound DFn d c :=
  ⟨0, rfl⟩

/-! ## Ordering, distance and traversal of step iterators -/

/-- C1: for two step iterators `p1`, `p2`, when the step of `p1` is positive each of
`<`, `>`, `<=`, `>=` equals the same relation on the base positions, and when the
step of `p1` is negative each equals the inverse relation on the base positions. -/
theorem ordering_follows_step_sign {I : Type} [LinearOrder I]
    (p1 p2 : byte_addressable_step_iterator I) :
    (0 < step p1 →
      operator_lt p1 p2 = decide (p1.base < p2.base) ∧
      operator_gt p1 p2 = decide (p1.base > p2.base) ∧
      operator_le p1 p2 = decide (p1.base ≤ p2.base) ∧
      operator_ge p1 p2 = decide (p1.base ≥ p2.base)) ∧
    (step p1 < 0 →
      operator_lt p1 p2 = decide (p1.base > p2.base) ∧
      operator_gt p1 p2 = decide (p1.base < p2.base) ∧
      operator_le p1 p2 = decide (p1.base ≥ p2.base) ∧
      operator_ge p1 p2 = decide (p1.base ≤ p2.base)) := by
  constructor
  · intro h
    have h1 : step p1 > 0 := h
    simp only [operator_lt, operator_gt, operator_le, operator_ge, if_pos h1, and_self]
  · intro h
    have h1 : ¬ step p1 > 0 := not_lt.mpr (le_of_lt h)
    simp only [operator_lt, operator_gt, operator_le, operator_ge, if_neg h1, and_self]

/-- Witness of C1: step 10 with bases 0 and 30 (direct order), and step -10 with
bases 90 and 70 (inverse order). -/
theorem ordering_follows_step_sign_witness :
    ((0 : Int) < step (⟨0, ⟨10⟩⟩ : byte_addressable_step_iterator Position) ∧
      operator_lt (⟨0, ⟨10⟩⟩ : byte_addressable_step_iterator Position) ⟨30, ⟨10⟩⟩ = true ∧
      operator_ge (⟨0, ⟨10⟩⟩ : byte_addressable_step_iterator Position) ⟨30, ⟨10⟩⟩ = false) ∧
    (step (⟨90, ⟨-10⟩⟩ : byte_addressable_step_iterator Position) < 0 ∧
      operator_lt (⟨90, ⟨-10⟩⟩ : byte_addressable_step_iterator Position) ⟨70, ⟨-10⟩⟩ = true ∧
      operator_ge (⟨90, ⟨-10⟩⟩ : byte_addressable_step_iterator Position) ⟨70, ⟨-10⟩⟩ = false) :=
  ⟨⟨by decide,
    ((ordering_follows_step_sign (⟨0, ⟨10⟩⟩ : byte_addressable_step_iterator Position)
      ⟨30, ⟨10⟩⟩).1 (by decide)).1.trans (by decide),
    ((ordering_follows_step_sign (⟨0, ⟨10⟩⟩ : byte_addressable_step_iterator Position)
      ⟨30, ⟨10⟩⟩).1 (by decide)).2.2.2.trans (by decide)⟩,
   ⟨by decide,
    ((ordering_follows_step_sign (⟨90, ⟨-10⟩⟩ : byte_addressable_step_iterator Position)
      ⟨70, ⟨-10⟩⟩).2 (by decide)).1.trans (by decide),
    ((ordering_follows_step_sign (⟨90, ⟨-10⟩⟩ : byte_addressable_step_iterator Position)
      ⟨70, ⟨-10⟩⟩).2 (by decide)).2.2.2.trans (by decide)⟩⟩

/-- C2: for every base position, every step different from zero and every integer
`n`, the distance from a step iterator to the iterator advanced by `n` logical
steps is `n`. -/
theorem distance_to_advance (it : byte_addressable_step_iterator Position) (n : Int)
    (hS : step it ≠ 0) : distance_to it (advance it n) = n := by
  show Int.tdiv (it.base + n * it._step_fn._step - it.base) it._step_fn._step = n
  have hraw : it.base + n * it._step_fn._step - it.base = n * it._step_fn._step := by ring
  rw [hraw]
  exact Int.mul_tdiv_cancel n hS

/-- Witness of C2: base 90, step -10, advanced by 7. -/
theorem distance_to_advance_witness :
    step (⟨90, ⟨-10⟩⟩ : byte_addressable_step_iterator Position) ≠ 0 ∧
      distance_to (⟨90, ⟨-10⟩⟩ : byte_addressable_step_iterator Position)
        (advance ⟨90, ⟨-10⟩⟩ 7) = 7 :=
  ⟨by decide, distance_to_advance ⟨90, ⟨-10⟩⟩ 7 (by decide)⟩

/-- C3: for every base position, every step different from zero and every integer
`n`, advancing a step iterator by `n` and then by `-n` gives back the original
iterator: the same base position and the same step. -/
theorem advance_neg_round_trip (it : byte_addressable_step_iterator Position) (n : Int)
    (_hS : step it ≠ 0) :
    advance (advance it n) (-n) = it ∧
      (advance (advance it n) (-n)).base = it.base ∧
      step (advance (advance it n) (-n)) = step it := by
  have hb : (advance (advance it n) (-n)).base = it.base := by
    rw [base_advance, base_advance, step_advance]
    ring
  refine ⟨?_, hb, rfl⟩
  obtain ⟨b, f⟩ := it
  have hb2 : (advance (advance (⟨b, f⟩ : byte_addressable_step_iterator Position) n) (-n)).base
      = b := hb
  show byte_addressable_step_iterator.mk _ f = ⟨b, f⟩
  exact congrArg (fun x => byte_addressable_step_iterator.mk x f) hb2

/-- Witness of C3: base 5, step 3, advanced by 4 and back. -/
theorem advance_neg_round_trip_witness :
    step (⟨5, ⟨3⟩⟩ : byte_addressable_step_iterator Position) ≠ 0 ∧
      advance (advance (⟨5, ⟨3⟩⟩ : byte_addressable_step_iterator Position) 4) (-4)
        = ⟨5, ⟨3⟩⟩ :=
  ⟨by decide, (advance_neg_round_trip ⟨5, ⟨3⟩⟩ 4 (by decide)).1⟩

/-- C8: for every step different from zero and positions `posA`, `posB`, the member
`difference` of `byte_step_fn` is the raw byte distance from `posA` to `posB` divided
by the step: the exact quotient when the distance is a multiple of the step, and
in every case the quotient truncated toward zero; raw distances 25 and -25 with
step 10 give 2 and -2. -/
theorem difference_is_truncated_quotient {I : Type} [ByteAdvanceableIterator I]
    (f : byte_step_fn I) (posA posB : I) (hS : f.step ≠ 0) :
    (∀ q : Int, byte_distance posA posB = q * f.step → f.difference posA posB = q) ∧
      f.difference posA posB = truncated_quotient (byte_distance posA posB) f.step ∧
      (byte_distance (0 : Position) 25 = 25 ∧
        (⟨10⟩ : byte_step_fn Position).difference 0 25 = 2) ∧
      (byte_distance (25 : Position) 0 = -25 ∧
        (⟨10⟩ : byte_step_fn Position).difference 25 0 = -2) := by
  refine ⟨?_, ?_, by decide, by decide⟩
  · intro q hq
    show Int.tdiv (byte_distance posA posB) f._step = q
    rw [hq]
    exact Int.mul_tdiv_cancel q hS
  · exact tdiv_eq_truncated_quotient (byte_distance posA posB) f._step

/-- Witness of C8: step 10 from byte 3 to byte 28, a raw distance of 25 bytes. -/
theorem difference_is_truncated_quotient_witness :
    (⟨10⟩ : byte_step_fn Position).step ≠ 0 ∧
      (⟨10⟩ : byte_step_fn Position).difference 3 28
        = truncated_quotient (byte_distance (3 : Position) 28) 10 ∧
      truncated_quotient (byte_distance (3 : Position) 28) 10 = 2 :=
  ⟨by decide,
    (difference_is_truncated_quotient (⟨10⟩ : byte_step_fn Position) 3 28 (by decide)).2.1,
    by decide⟩

/-- C9: `advance` moves the base position by exactly `count * step` raw bytes,
`increment` by `+step` and `decrement` by `-step`, the step being kept; hence `k`
increments from byte `b` with step `S` leave the cursor at byte `b + k * S`, and
three increments from byte 0 with step 10 leave it at byte 30. -/
theorem advance_moves_by_count_times_step (it : byte_addressable_step_iterator Position)
    (count : Int) (k : Nat) :
    (advance it count).base = it.base + count * step it ∧
      step (advance it count) = step it ∧
      (increment it).base = it.base + step it ∧
      step (increment it) = step it ∧
      (decrement it).base = it.base - step it ∧
      step (decrement it) = step it ∧
      (increment^[k] it).base = it.base + (k : Int) * step it ∧
      (increment^[3] (⟨0, ⟨10⟩⟩ : byte_addressable_step_iterator Position)).base = 30 := by
  refine ⟨rfl, rfl, base_increment it, rfl, ?_, rfl, (base_iterate_increment it k).1, by decide⟩
  show it.base + (-1) * it._step_fn._step = it.base - it._step_fn._step
  ring

/-- C10: for every base position, every step different from zero of either sign and
every `n > 0`, the iterator advanced by `n` logical steps compares `>` and `>=` the
original, and the original compares `<` and `<=` the advanced one; with step -10
from byte 90, two increments leave the cursor at byte 70 and the cursor compares
`>` the start. -/
theorem later_in_traversal_compares_greater (it : byte_addressable_step_iterator Position)
    (n : Int) (hS : step it ≠ 0) (hn : 0 < n) :
    operator_gt (advance it n) it = true ∧
      operator_ge (advance it n) it = true ∧
      operator_lt it (advance it n) = true ∧
      operator_le it (advance it n) = true ∧
      (increment^[2] (⟨90, ⟨-10⟩⟩ : byte_addressable_step_iterator Position)).base = 70 ∧
      operator_gt (increment^[2] (⟨90, ⟨-10⟩⟩ : byte_addressable_step_iterator Position))
        ⟨90, ⟨-10⟩⟩ = true := by
  have hgoal : operator_gt (advance it n) it = true ∧ operator_ge (advance it n) it = true ∧
      operator_lt it (advance it n) = true ∧ operator_le it (advance it n) = true := by
    simp only [operator_gt, operator_ge, operator_lt, operator_le, step_advance, base_advance]
    rcases lt_or_gt_of_ne hS with hneg | hpos
    · have hprod : n * step it < 0 := Int.mul_neg_of_pos_of_neg hn hneg
      have hnot : ¬ step it > 0 := not_lt.mpr (le_of_lt hneg)
      simp only [if_neg hnot, decide_eq_true_eq, gt_iff_lt, ge_iff_le]
      refine ⟨?_, ?_, ?_, ?_⟩ <;> linarith
    · have hprod : 0 < n * step it := Int.mul_pos hn hpos
      have hyes : step it > 0 := hpos
      simp only [if_pos hyes, decide_eq_true_eq, gt_iff_lt, ge_iff_le]
      refine ⟨?_, ?_, ?_, ?_⟩ <;> linarith
  exact ⟨hgoal.1, hgoal.2.1, hgoal.2.2.1, hgoal.2.2.2, by decide, by decide⟩

/-- Witness of C10: base 90, step -10, advanced by 2. -/
theorem later_in_traversal_compares_greater_witness :
    step (⟨90, ⟨-10⟩⟩ : byte_addressable_step_iterator Position) ≠ 0 ∧ (0 : Int) < 2 ∧
      operator_gt (advance (⟨90, ⟨-10⟩⟩ : byte_addressable_step_iterator Position) 2)
        ⟨90, ⟨-10⟩⟩ = true ∧
      operator_lt (⟨90, ⟨-10⟩⟩ : byte_addressable_step_iterator Position)
        (advance ⟨90, ⟨-10⟩⟩ 2) = true :=
  ⟨by decide, by decide,
    (later_in_traversal_compares_greater ⟨90, ⟨-10⟩⟩ 2 (by decide) (by decide)).1,
    (later_in_traversal_compares_greater ⟨90, ⟨-10⟩⟩ 2 (by decide) (by decide)).2.2.1⟩

/-! ## The resolver `make_step_iterator` -/

/-- C4: for every plain base cursor `b` and every non-empty list of steps, applying
`make_step_iterator` successively yields a byte-addressable step iterator with
exactly one stride layer, whose base is `b` and whose step is the last step of the
list; in particular `make_step_iterator(make_step_iterator(b,S1),S2)` has base `b`
and step `S2`, and is not two stacked layers. -/
theorem restride_keeps_one_layer (convert : Nat → Cursor → Cursor) (b : Position)
    (S1 S2 : Int) (rest : List Int) :
    (∃ it : byte_addressable_step_iterator Cursor,
      (S1 :: rest).foldl (make_step_iterator convert) (Cursor.plain b) = Cursor.step it ∧
      it.base = Cursor.plain b ∧
      step it = (S1 :: rest).getLast (List.cons_ne_nil S1 rest)) ∧
    ((S1 :: rest).foldl (make_step_iterator convert) (Cursor.plain b)).stride_layers = 1 ∧
    make_step_iterator convert (make_step_iterator convert (Cursor.plain b) S1) S2
      = Cursor.step ⟨Cursor.plain b, ⟨S2⟩⟩ ∧
    make_step_iterator convert (make_step_iterator convert (Cursor.plain b) S1) S2
      ≠ Cursor.step ⟨Cursor.step ⟨Cursor.plain b, ⟨S1⟩⟩, ⟨S2⟩⟩ := by
  have hfold : (S1 :: rest).foldl (make_step_iterator convert) (Cursor.plain b)
      = Cursor.step ⟨Cursor.plain b, ⟨(S1 :: rest).getLast (List.cons_ne_nil S1 rest)⟩⟩ :=
    foldl_make_step_iterator_step convert (Cursor.plain b) rest S1
  refine ⟨⟨_, hfold, rfl, rfl⟩, ?_, rfl, ?_⟩
  · rw [hfold]
    rfl
  · intro h
    cases h

/-- C5, refuted as stated: re-striding the step iterator over byte 0 with step 2 by
the requested step 3 gives step 3, not the product `2 * 3`. -/
theorem restride_step_is_not_the_product :
    make_step_iterator rewrap (Cursor.step ⟨Cursor.plain 0, ⟨2⟩⟩) 3
        = Cursor.step ⟨Cursor.plain 0, ⟨3⟩⟩ ∧
      make_step_iterator rewrap (Cursor.step ⟨Cursor.plain 0, ⟨2⟩⟩) 3
        ≠ Cursor.step ⟨Cursor.plain 0, ⟨2 * 3⟩⟩ := by
  refine ⟨rfl, ?_⟩
  intro h
  cases h

/-- C5, amended: for every byte-addressable step iterator with base `b` and step `S1`
and every requested step `S2`, `make_step_iterator(it, S2)` is a single stride layer
over `b` whose step is `S2`: the requested step replaces `S1`.  It traverses as the
stack of a step-`S2` layer on top of the step-`S1` layer does, because the stacked
layer moves and measures its base in raw bytes: advancing the stack by `n` moves the
innermost base as advancing the single layer does, and the distances agree. -/
theorem restride_replaces_step (convert : Nat → Cursor → Cursor) (b : Cursor) (S1 S2 : Int)
    {I : Type} [ByteAdvanceableIterator I] (x y : I) (n : Int) :
    make_step_iterator convert (Cursor.step ⟨b, ⟨S1⟩⟩) S2 = Cursor.step ⟨b, ⟨S2⟩⟩ ∧
      (make_step_iterator convert (Cursor.step ⟨b, ⟨S1⟩⟩) S2).stride_layers
        = b.stride_layers + 1 ∧
      (advance (⟨⟨x, ⟨S1⟩⟩, ⟨S2⟩⟩ :
          byte_addressable_step_iterator (byte_addressable_step_iterator I)) n).base.base
        = (advance (⟨x, ⟨S2⟩⟩ : byte_addressable_step_iterator I) n).base ∧
      step (advance (⟨⟨x, ⟨S1⟩⟩, ⟨S2⟩⟩ :
          byte_addressable_step_iterator (byte_addressable_step_iterator I)) n) = S2 ∧
      distance_to (⟨⟨x, ⟨S1⟩⟩, ⟨S2⟩⟩ :
          byte_addressable_step_iterator (byte_addressable_step_iterator I)) ⟨⟨y, ⟨S1⟩⟩, ⟨S2⟩⟩
        = distance_to (⟨x, ⟨S2⟩⟩ : byte_addressable_step_iterator I) ⟨y, ⟨S2⟩⟩ :=
  ⟨rfl, rfl, rfl, rfl, rfl⟩

/-- C6, evaluated on the source: the overload for a compound iterator passes only
`it.base()` and `step` on, so two adaptors of the same transform type around the same
inner cursor, holding transform objects in different states, are re-strided to the
same iterator; whatever the conversion to the return type is, the result is not for
both of them the input's own transform wrapped around the re-strided inner cursor. -/
theorem compound_restride_drops_transform (convert : Nat → Cursor → Cursor) :
    make_step_iterator convert (Cursor.compound 0 1 (Cursor.plain 0)) 4
        = make_step_iterator convert (Cursor.compound 0 2 (Cursor.plain 0)) 4 ∧
      ¬ (make_step_iterator convert (Cursor.compound 0 1 (Cursor.plain 0)) 4
            = Cursor.compound 0 1 (make_step_iterator convert (Cursor.plain 0) 4) ∧
          make_step_iterator convert (Cursor.compound 0 2 (Cursor.plain 0)) 4
            = Cursor.compound 0 2 (make_step_iterator convert (Cursor.plain 0) 4)) := by
  refine ⟨rfl, ?_⟩
  rintro ⟨h1, h2⟩
  rw [make_step_iterator_compound_congr convert 0 2 1] at h2
  rw [h1] at h2
  cases h2

/-- C7: for every plain cursor `b` and every step `S`, `make_step_iterator(b, S)` is a
byte-addressable step iterator wrapping `b` directly: its `base()` is `b` and its
`step()` is `S`. -/
theorem make_step_iterator_plain (convert : Nat → Cursor → Cursor) (b : Position) (S : Int) :
    ∃ it : byte_addressable_step_iterator Cursor,
      make_step_iterator convert (Cursor.plain b) S = Cursor.step it ∧
      it.base = Cursor.plain b ∧ step it = S ∧
      (Cursor.step it).stride_layers = 1 :=
  ⟨⟨Cursor.plain b, ⟨S⟩⟩, rfl, rfl, rfl, rfl⟩

/-! ## Rebinding the step, equality, metadata and defaults -/

/-- C11: `set_step(newStep)` on a byte-addressable step iterator leaves the base
position unchanged and makes `step()` return `newStep`; a subsequent increment moves
the base by `newStep` bytes and a subsequent `advance(n)` by `n * newStep` bytes,
whatever the previous step was (from byte 30 with step 10, after `set_step(3)` one
increment reaches byte 33). -/
theorem set_step_rebinds_step (p : byte_addressable_step_iterator Position)
    (newStep n : Int) :
    (p.set_step newStep).base = p.base ∧
      step (p.set_step newStep) = newStep ∧
      (increment (p.set_step newStep)).base = p.base + newStep ∧
      (advance (p.set_step newStep) n).base = p.base + n * newStep ∧
      (increment ((⟨30, ⟨10⟩⟩ : byte_addressable_step_iterator Position).set_step 3)).base
        = 33 := by
  refine ⟨rfl, rfl, ?_, rfl, by decide⟩
  show p.base + 1 * newStep = p.base + newStep
  rw [Int.one_mul]

/-- C12: for every two step iterators `p1`, `p2`, with any steps, `p1 == p2` holds
exactly when their base positions are equal, and `p1 != p2` is the negation of
`p1 == p2`; iterators at byte 40 with steps 10 and -3 compare equal. -/
theorem equality_is_base_equality {I : Type} [LinearOrder I]
    (p1 p2 : byte_addressable_step_iterator I) :
    (operator_eq p1 p2 = true ↔ p1.base = p2.base) ∧
      operator_ne p1 p2 = !operator_eq p1 p2 ∧
      operator_eq (⟨40, ⟨10⟩⟩ : byte_addressable_step_iterator Position) ⟨40, ⟨-3⟩⟩ = true := by
  refine ⟨?_, ?_, by decide⟩
  · simp only [operator_eq, decide_eq_true_eq]
  · simp only [operator_eq, operator_ne, ne_eq, decide_not]

/-- C13: for every base iterator type `I`, the element metadata reported for
`byte_addressable_step_iterator<I>` (color space, channel mapping, channel type,
planar flag, mutability) is the metadata reported for `I`. -/
theorem metadata_is_forwarded (I : Type) [PixelBasedTraits I] :
    PixelBasedTraits.color_space_type (byte_addressable_step_iterator I)
        = PixelBasedTraits.color_space_type I ∧
      PixelBasedTraits.channel_mapping_type (byte_addressable_step_iterator I)
        = PixelBasedTraits.channel_mapping_type I ∧
      PixelBasedTraits.channel_type (byte_addressable_step_iterator I)
        = PixelBasedTraits.channel_type I ∧
      PixelBasedTraits.is_planar (byte_addressable_step_iterator I)
        = PixelBasedTraits.is_planar I ∧
      PixelBasedTraits.iterator_is_mutable (byte_addressable_step_iterator I)
        = PixelBasedTraits.iterator_is_mutable I :=
  ⟨rfl, rfl, rfl, rfl, rfl⟩

/-- C14: a `byte_step_fn` and a byte-addressable step iterator constructed without an
explicit step have `step()` equal to `byte_step` of a default-constructed base
iterator, so that one increment moves the base by that many bytes, one natural
element; over plain byte positions the default-constructed iterator steps from
byte 0 to byte 1. -/
theorem default_step_is_natural_step {I : Type} [ByteAdvanceableIterator I] (it : I) :
    (byte_step_fn.construct : byte_step_fn I).step
        = byte_step (ByteAdvanceableIterator.construct : I) ∧
      step (byte_addressable_step_iterator.construct : byte_addressable_step_iterator I)
        = byte_step (ByteAdvanceableIterator.construct : I) ∧
      (byte_addressable_step_iterator.construct : byte_addressable_step_iterator I)
        = make_default (ByteAdvanceableIterator.construct : I) ∧
      step (make_default it) = byte_step (ByteAdvanceableIterator.construct : I) ∧
      (increment (make_default it)).base
        = byte_advance it (byte_step (ByteAdvanceableIterator.construct : I)) ∧
      (increment (byte_addressable_step_iterator.construct :
        byte_addressable_step_iterator Position)).base = 1 := by
  refine ⟨rfl, rfl, rfl, rfl, ?_, by decide⟩
  show byte_advance it (1 * byte_step (ByteAdvanceableIterator.construct : I)) = _
  rw [Int.one_mul]

/-- C16: a zero step degenerates the sequence to a constant position: for a step
iterator with step 0 and any base position, `increment`, `decrement` and
`advance(n)` for every integer `n` leave the base position unchanged. -/
theorem zero_step_is_constant (it : byte_addressable_step_iterator Position) (n : Int)
    (h0 : step it = 0) :
    (increment it).base = it.base ∧ (decrement it).base = it.base ∧
      (advance it n).base = it.base := by
  have hmul : ∀ d : Int, (advance it d).base = it.base := by
    intro d
    rw [base_advance, h0, Int.mul_zero, Int.add_zero]
  exact ⟨hmul 1, hmul (-1), hmul n⟩

/-- Witness of C16: byte 42 with step 0, advanced by 5. -/
theorem zero_step_is_constant_witness :
    step (⟨42, ⟨0⟩⟩ : byte_addressable_step_iterator Position) = 0 ∧
      (advance (⟨42, ⟨0⟩⟩ : byte_addressable_step_iterator Position) 5).base = 42 :=
  ⟨rfl, (zero_step_is_constant ⟨42, ⟨0⟩⟩ 5 rfl).2.2⟩

/-- C17, refuted as stated: the result does not have exactly one stride layer for
every base `b`.  One compound adaptor around the step iterator with step 3 whose
base `b` is itself a step iterator (over byte 0 with step 2), re-strided to step 5:
the located step iterator has base `b` and step 5 as claimed, but the layer inside
`b` is kept, so the result contains two stride layers. -/
theorem chain_restride_keeps_layers_of_base :
    (make_step_iterator rewrap
        (Cursor.wrap [(1, 8)] (Cursor.step ⟨Cursor.step ⟨Cursor.plain 0, ⟨2⟩⟩, ⟨3⟩⟩))
        5).locate_step = some ⟨Cursor.step ⟨Cursor.plain 0, ⟨2⟩⟩, ⟨5⟩⟩ ∧
      (make_step_iterator rewrap
        (Cursor.wrap [(1, 8)] (Cursor.step ⟨Cursor.step ⟨Cursor.plain 0, ⟨2⟩⟩, ⟨3⟩⟩))
        5).stride_layers = 2 ∧
      (make_step_iterator rewrap
        (Cursor.wrap [(1, 8)] (Cursor.step ⟨Cursor.step ⟨Cursor.plain 0, ⟨2⟩⟩, ⟨3⟩⟩))
        5).stride_layers ≠ 1 :=
  ⟨rfl, by decide, by decide⟩

/-- C17, amended: for every chain of `n >= 0` compound adaptors wrapped around a
byte-addressable step iterator with base `b` and step `S1`,
`make_step_iterator(chain, S2)` traverses the chain to the step iterator and sets its
step: the result is a chain of the same transform types around the step iterator
with base `b` and step `S2`, the step iterator located in it has base `b` and step
`S2`, and it has one stride layer on top of those of `b`: exactly one when `b` is
plain, and no layer is added by the call.  The conversion to the return type,
declared outside the sources, is assumed to build an adaptor of the transform type
around the value it is given. -/
theorem chain_restride_sets_located_step (convert : Nat → Cursor → Cursor)
    (hconv : ∀ DFn c, ∃ d, convert DFn c = Cursor.compound DFn d c)
    (chain : List (Nat × Int)) (b : Cursor) (p : Position) (S1 S2 : Int) :
    (∃ chain2 : List (Nat × Int), chain2.map Prod.fst = chain.map Prod.fst ∧
      make_step_iterator convert (Cursor.wrap chain (Cursor.step ⟨b, ⟨S1⟩⟩)) S2
        = Cursor.wrap chain2 (Cursor.step ⟨b, ⟨S2⟩⟩)) ∧
    (make_step_iterator convert (Cursor.wrap chain (Cursor.step ⟨b, ⟨S1⟩⟩)) S2).locate_step
      = some ⟨b, ⟨S2⟩⟩ ∧
    (make_step_iterator convert (Cursor.wrap chain (Cursor.step ⟨b, ⟨S1⟩⟩)) S2).stride_layers
      = b.stride_layers + 1 ∧
    (make_step_iterator convert
      (Cursor.wrap chain (Cursor.step ⟨Cursor.plain p, ⟨S1⟩⟩)) S2).stride_layers = 1 := by
  have key : ∀ c : Cursor, ∃ chain2 : List (Nat × Int),
      chain2.map Prod.fst = chain.map Prod.fst ∧
      make_step_iterator convert (Cursor.wrap chain (Cursor.step ⟨c, ⟨S1⟩⟩)) S2
        = Cursor.wrap chain2 (Cursor.step ⟨c, ⟨S2⟩⟩) := fun c =>
    make_step_iterator_wrap convert hconv chain (Cursor.step ⟨c, ⟨S1⟩⟩) S2
  obtain ⟨chain2, hmap, hres⟩ := key b
  obtain ⟨chain3, _, hres3⟩ := key (Cursor.plain p)
  refine ⟨⟨chain2, hmap, hres⟩, ?_, ?_, ?_⟩
  · rw [hres, locate_step_wrap]
    rfl
  · rw [hres, stride_layers_wrap]
    rfl
  · rw [hres3, stride_layers_wrap]
    rfl

/-- Witness of C17: two compound adaptors around the step iterator over byte 7 with
step 2, re-strided to step 5 with the re-wrapping conversion. -/
theorem chain_restride_sets_located_step_witness :
    (∀ DFn c, ∃ d, rewrap DFn c = Cursor.compound DFn d c) ∧
      (make_step_iterator rewrap
        (Cursor.wrap [(1, 8), (2, 9)] (Cursor.step ⟨Cursor.plain 7, ⟨2⟩⟩)) 5).locate_step
        = some ⟨Cursor.plain 7, ⟨5⟩⟩ :=
  ⟨rewrap_wraps,
    (chain_restride_sets_located_step rewrap rewrap_wraps [(1, 8), (2, 9)]
      (Cursor.plain 7) 0 2 5).2.1⟩

/-- C18: the hand-written relational operators agree with the distance-based ones
they replace: for two step iterators sharing the same step `S ≠ 0` whose bases
differ by an exact multiple of `S`, `p1<p2` iff `distance_to(p1,p2) > 0`, `p1>p2` iff
`distance_to(p1,p2) < 0`, `p1<=p2` iff `distance_to(p1,p2) >= 0`, `p1>=p2` iff
`distance_to(p1,p2) <= 0`, and `p1==p2` iff `distance_to(p1,p2) == 0`. -/
theorem operators_agree_with_distance (p1 p2 : byte_addressable_step_iterator Position)
    (_hstep : step p1 = step p2) (hS : step p1 ≠ 0)
    (hmul : ∃ q : Int, p2.base - p1.base = q * step p1) :
    (operator_lt p1 p2 = true ↔ distance_to p1 p2 > 0) ∧
      (operator_gt p1 p2 = true ↔ distance_to p1 p2 < 0) ∧
      (operator_le p1 p2 = true ↔ distance_to p1 p2 ≥ 0) ∧
      (operator_ge p1 p2 = true ↔ distance_to p1 p2 ≤ 0) ∧
      (operator_eq p1 p2 = true ↔ distance_to p1 p2 = 0) := by
  obtain ⟨q, hq⟩ := hmul
  have hdist : distance_to p1 p2 = q := by
    show Int.tdiv (p2.base - p1.base) p1._step_fn._step = q
    rw [hq]
    exact Int.mul_tdiv_cancel q hS
  have hb : p2.base = p1.base + q * step p1 := by linarith
  rw [hdist]
  simp only [operator_lt, operator_gt, operator_le, operator_ge, operator_eq]
  rcases lt_or_gt_of_ne hS with hneg | hpos
  · have hnot : ¬ step p1 > 0 := not_lt.mpr (le_of_lt hneg)
    simp only [if_neg hnot, decide_eq_true_eq, gt_iff_lt, ge_iff_le]
    rcases lt_trichotomy q 0 with hq0 | hq0 | hq0
    · have hprod : 0 < q * step p1 := Int.mul_pos_of_neg_of_neg hq0 hneg
      refine ⟨⟨?_, ?_⟩, ⟨?_, ?_⟩, ⟨?_, ?_⟩, ⟨?_, ?_⟩, ⟨?_, ?_⟩⟩ <;> intro h <;> linarith
    · subst hq0
      rw [Int.zero_mul, Int.add_zero] at hb
      refine ⟨⟨?_, ?_⟩, ⟨?_, ?_⟩, ⟨?_, ?_⟩, ⟨?_, ?_⟩, ⟨?_, ?_⟩⟩ <;> intro h <;> linarith
    · have hprod : q * step p1 < 0 := Int.mul_neg_of_pos_of_neg hq0 hneg
      refine ⟨⟨?_, ?_⟩, ⟨?_, ?_⟩, ⟨?_, ?_⟩, ⟨?_, ?_⟩, ⟨?_, ?_⟩⟩ <;> intro h <;> linarith
  · have hyes : step p1 > 0 := hpos
    simp only [if_pos hyes, decide_eq_true_eq, gt_iff_lt, ge_iff_le]
    rcases lt_trichotomy q 0 with hq0 | hq0 | hq0
    · have hprod : q * step p1 < 0 := Int.mul_neg_of_neg_of_pos hq0 hpos
      refine ⟨⟨?_, ?_⟩, ⟨?_, ?_⟩, ⟨?_, ?_⟩, ⟨?_, ?_⟩, ⟨?_, ?_⟩⟩ <;> intro h <;> linarith
    · subst hq0
      rw [Int.zero_mul, Int.add_zero] at hb
      refine ⟨⟨?_, ?_⟩, ⟨?_, ?_⟩, ⟨?_, ?_⟩, ⟨?_, ?_⟩, ⟨?_, ?_⟩⟩ <;> intro h <;> linarith
    · have hprod : 0 < q * step p1 := Int.mul_pos hq0 hpos
      refine ⟨⟨?_, ?_⟩, ⟨?_, ?_⟩, ⟨?_, ?_⟩, ⟨?_, ?_⟩, ⟨?_, ?_⟩⟩ <;> intro h <;> linarith

/-- Witness of C18: step -10, bases 90 and 70, two whole steps apart. -/
theorem operators_agree_with_distance_witness :
    step (⟨90, ⟨-10⟩⟩ : byte_addressable_step_iterator Position)
        = step (⟨70, ⟨-10⟩⟩ : byte_addressable_step_iterator Position) ∧
      step (⟨90, ⟨-10⟩⟩ : byte_addressable_step_iterator Position) ≠ 0 ∧
      (∃ q : Int, (70 : Int) - 90 = q * (-10)) ∧
      (operator_lt (⟨90, ⟨-10⟩⟩ : byte_addressable_step_iterator Position) ⟨70, ⟨-10⟩⟩ = true ↔
        distance_to (⟨90, ⟨-10⟩⟩ : byte_addressable_step_iterator Position) ⟨70, ⟨-10⟩⟩ > 0) :=
  ⟨rfl, by decide, ⟨2, by decide⟩,
    (operators_agree_with_distance ⟨90, ⟨-10⟩⟩ ⟨70, ⟨-10⟩⟩ rfl (by decide)
      ⟨2, by decide⟩).1⟩

/-- C19: `iterator_add_deref::make` on a byte-addressable step iterator with base `b`
and step `S` and a dereference adaptor `d` returns a byte-addressable step iterator
whose step is `S` and whose base is the dereference-adapted base
`iterator_add_deref::make(b, d)`: the function object goes to the base and the
stride layer stays outermost. -/
theorem add_deref_goes_to_base {I Deref J : Type} (base_make : I → Deref → J)
    (b : I) (S : Int) (d : Deref) :
    (iterator_add_deref.make base_make (⟨b, ⟨S⟩⟩ : byte_addressable_step_iterator I) d).base
        = base_make b d ∧
      step (iterator_add_deref.make base_make (⟨b, ⟨S⟩⟩ : byte_addressable_step_iterator I) d)
        = S ∧
      iterator_add_deref.make base_make (⟨b, ⟨S⟩⟩ : byte_addressable_step_iterator I) d
        = ⟨base_make b d, ⟨S⟩⟩ :=
  ⟨rfl, rfl, rfl⟩

/-- C20: the byte-level functions on a byte-addressable step iterator work in raw
bytes, not scaled by the step: `byte_step(p)` is `p.step()`; `byte_advanced(p, d)` has
the step of `p` and a base moved by exactly `d` bytes; `byte_advance(p, d)` moves the
base by `d` bytes and leaves the step unchanged; and
`byte_distance(p, byte_advanced(p, d)) == d` for every integer `d` (from byte 0 with
step 10, `byte_advanced(p, 3)` is at byte 3, while `advance(3)` is at byte 30). -/
theorem byte_level_functions_are_unscaled (p : byte_addressable_step_iterator Position)
    (d : Int) :
    byte_step p = step p ∧
      (byte_advanced p d).base = p.base + d ∧ step (byte_advanced p d) = step p ∧
      (byte_advance p d).base = p.base + d ∧ step (byte_advance p d) = step p ∧
      byte_distance p (byte_advanced p d) = d ∧
      (byte_advanced (⟨0, ⟨10⟩⟩ : byte_addressable_step_iterator Position) 3).base = 3 ∧
      (advance (⟨0, ⟨10⟩⟩ : byte_addressable_step_iterator Position) 3).base = 30 := by
  refine ⟨rfl, rfl, rfl, rfl, rfl, ?_, by decide, by decide⟩
  show p.base + d - p.base = d
  ring

/-! ## Ordering across and within steps, and antisymmetry of the distance -/

/-- C21: the ordering operators consult only the step of the left operand, so the
ordering is not antisymmetric across steps of different sign: for every `p1` with
step `> 0` and `p2` with step `<= 0`, `p1 < p2` iff `p2 < p1`; and there are such
iterators with distinct bases (byte 0 with step 10, byte 5 with step -10) for which
`p1 < p2` and `p2 < p1` are both true. -/
theorem ordering_not_antisymmetric_across_signs {I : Type} [LinearOrder I]
    (p1 p2 : byte_addressable_step_iterator I) :
    (0 < step p1 → step p2 ≤ 0 → (operator_lt p1 p2 = true ↔ operator_lt p2 p1 = true)) ∧
      (∃ q1 q2 : byte_addressable_step_iterator Position,
        0 < step q1 ∧ step q2 < 0 ∧ q1.base ≠ q2.base ∧
        operator_lt q1 q2 = true ∧ operator_lt q2 q1 = true) := by
  constructor
  · intro h1 h2
    have hyes : step p1 > 0 := h1
    have hnot : ¬ step p2 > 0 := not_lt.mpr h2
    simp only [operator_lt, if_pos hyes, if_neg hnot, decide_eq_true_eq, gt_iff_lt]
  · exact ⟨⟨0, ⟨10⟩⟩, ⟨5, ⟨-10⟩⟩, by decide, by decide, by decide, by decide, by decide⟩

/-- Witness of C21: byte 0 with step 10 against byte 5 with step -10. -/
theorem ordering_not_antisymmetric_across_signs_witness :
    0 < step (⟨0, ⟨10⟩⟩ : byte_addressable_step_iterator Position) ∧
      step (⟨5, ⟨-10⟩⟩ : byte_addressable_step_iterator Position) ≤ 0 ∧
      (operator_lt (⟨0, ⟨10⟩⟩ : byte_addressable_step_iterator Position) ⟨5, ⟨-10⟩⟩ = true ↔
        operator_lt (⟨5, ⟨-10⟩⟩ : byte_addressable_step_iterator Position) ⟨0, ⟨10⟩⟩ = true) :=
  ⟨by decide, by decide,
    (ordering_not_antisymmetric_across_signs
      (⟨0, ⟨10⟩⟩ : byte_addressable_step_iterator Position) ⟨5, ⟨-10⟩⟩).1
      (by decide) (by decide)⟩

/-- C22: for step iterators sharing the same step (any value, zero and negatives
included) the comparisons form a consistent total order: exactly one of `p1<p2`,
`p1==p2`, `p1>p2` holds; `p1<=p2` iff not `p1>p2`; `p1>=p2` iff not `p1<p2`; `p1>p2` iff
`p2<p1`; and `<` is transitive. -/
theorem same_step_total_order {I : Type} [LinearOrder I]
    (p1 p2 p3 : byte_addressable_step_iterator I)
    (h12 : step p1 = step p2) (_h23 : step p2 = step p3) :
    ((operator_lt p1 p2 = true ∨ operator_eq p1 p2 = true ∨ operator_gt p1 p2 = true) ∧
        ¬ (operator_lt p1 p2 = true ∧ operator_eq p1 p2 = true) ∧
        ¬ (operator_lt p1 p2 = true ∧ operator_gt p1 p2 = true) ∧
        ¬ (operator_eq p1 p2 = true ∧ operator_gt p1 p2 = true)) ∧
      (operator_le p1 p2 = true ↔ ¬ operator_gt p1 p2 = true) ∧
      (operator_ge p1 p2 = true ↔ ¬ operator_lt p1 p2 = true) ∧
      (operator_gt p1 p2 = true ↔ operator_lt p2 p1 = true) ∧
      (operator_lt p1 p2 = true → operator_lt p2 p3 = true → operator_lt p1 p3 = true) := by
  by_cases hpos : step p1 > 0
  · have hpos2 : step p2 > 0 := h12 ▸ hpos
    simp only [operator_lt, operator_gt, operator_le, operator_ge, operator_eq,
      if_pos hpos, if_pos hpos2, decide_eq_true_eq, gt_iff_lt, ge_iff_le, not_lt]
    refine ⟨⟨?_, ?_, ?_, ?_⟩, trivial, trivial, trivial, fun hab hbc => lt_trans hab hbc⟩
    · exact lt_trichotomy p1.base p2.base
    · rintro ⟨hlt, heq⟩
      exact absurd heq (ne_of_lt hlt)
    · rintro ⟨hlt, hgt⟩
      exact lt_asymm hlt hgt
    · rintro ⟨heq, hgt⟩
      exact absurd heq.symm (ne_of_lt hgt)
  · have hpos2 : ¬ step p2 > 0 := h12 ▸ hpos
    simp only [operator_lt, operator_gt, operator_le, operator_ge, operator_eq,
      if_neg hpos, if_neg hpos2, decide_eq_true_eq, gt_iff_lt, ge_iff_le, not_lt]
    refine ⟨⟨?_, ?_, ?_, ?_⟩, trivial, trivial, trivial, fun hab hbc => lt_trans hbc hab⟩
    · rcases lt_trichotomy p1.base p2.base with h | h | h
      · exact Or.inr (Or.inr h)
      · exact Or.inr (Or.inl h)
      · exact Or.inl h
    · rintro ⟨hlt, heq⟩
      exact absurd heq.symm (ne_of_lt hlt)
    · rintro ⟨hlt, hgt⟩
      exact lt_asymm hlt hgt
    · rintro ⟨heq, hgt⟩
      exact absurd heq (ne_of_lt hgt)

/-- Witness of C22: step 0 at bytes 1, 2, 3, and step -10 at bytes 90, 80, 70. -/
theorem same_step_total_order_witness :
    (step (⟨1, ⟨0⟩⟩ : byte_addressable_step_iterator Position)
        = step (⟨2, ⟨0⟩⟩ : byte_addressable_step_iterator Position) ∧
      step (⟨2, ⟨0⟩⟩ : byte_addressable_step_iterator Position)
        = step (⟨3, ⟨0⟩⟩ : byte_addressable_step_iterator Position) ∧
      (operator_gt (⟨1, ⟨0⟩⟩ : byte_addressable_step_iterator Position) ⟨2, ⟨0⟩⟩ = true ↔
        operator_lt (⟨2, ⟨0⟩⟩ : byte_addressable_step_iterator Position) ⟨1, ⟨0⟩⟩ = true)) ∧
    (operator_lt (⟨90, ⟨-10⟩⟩ : byte_addressable_step_iterator Position) ⟨80, ⟨-10⟩⟩ = true →
      operator_lt (⟨80, ⟨-10⟩⟩ : byte_addressable_step_iterator Position) ⟨70, ⟨-10⟩⟩ = true →
      operator_lt (⟨90, ⟨-10⟩⟩ : byte_addressable_step_iterator Position) ⟨70, ⟨-10⟩⟩ = true) :=
  ⟨⟨rfl, rfl,
    (same_step_total_order (⟨1, ⟨0⟩⟩ : byte_addressable_step_iterator Position)
      ⟨2, ⟨0⟩⟩ ⟨3, ⟨0⟩⟩ rfl rfl).2.2.2.1⟩,
   (same_step_total_order (⟨90, ⟨-10⟩⟩ : byte_addressable_step_iterator Position)
      ⟨80, ⟨-10⟩⟩ ⟨70, ⟨-10⟩⟩ rfl rfl).2.2.2.2⟩

/-- C23: for two step iterators sharing the same step `S ≠ 0`, `distance_to` is
antisymmetric even when the bases are not a whole number of steps apart:
`distance_to(p1, p2) == -distance_to(p2, p1)`, and `distance_to(p1, p1) == 0`. -/
theorem distance_to_antisymmetric (p1 p2 : byte_addressable_step_iterator Position)
    (h12 : step p1 = step p2) (_hS : step p1 ≠ 0) :
    distance_to p1 p2 = - distance_to p2 p1 ∧ distance_to p1 p1 = 0 := by
  constructor
  · show Int.tdiv (p2.base - p1.base) p1._step_fn._step
      = - Int.tdiv (p1.base - p2.base) p2._step_fn._step
    have hs : p1._step_fn._step = p2._step_fn._step := h12
    have hneg : p2.base - p1.base = - (p1.base - p2.base) := by ring
    rw [hs, hneg, Int.neg_tdiv]
  · show Int.tdiv (p1.base - p1.base) p1._step_fn._step = 0
    rw [Int.sub_self, Int.zero_tdiv]

/-- Witness of C23: step 10 at bytes 0 and 25, which are not a whole number of steps
apart; the two distances are 2 and -2. -/
theorem distance_to_antisymmetric_witness :
    step (⟨0, ⟨10⟩⟩ : byte_addressable_step_iterator Position)
        = step (⟨25, ⟨10⟩⟩ : byte_addressable_step_iterator Position) ∧
      step (⟨0, ⟨10⟩⟩ : byte_addressable_step_iterator Position) ≠ 0 ∧
      distance_to (⟨0, ⟨10⟩⟩ : byte_addressable_step_iterator Position) ⟨25, ⟨10⟩⟩
        = - distance_to (⟨25, ⟨10⟩⟩ : byte_addressable_step_iterator Position) ⟨0, ⟨10⟩⟩ ∧
      distance_to (⟨0, ⟨10⟩⟩ : byte_addressable_step_iterator Position) ⟨25, ⟨10⟩⟩ = 2 :=
  ⟨rfl, by decide,
    (distance_to_antisymmetric ⟨0, ⟨10⟩⟩ ⟨25, ⟨10⟩⟩ rfl (by decide)).1, by decide⟩

end Gil

namespace Geometry

/-! ## Accessors of `point_xy` -/

theorem stored_point_lawful (CoordinateType : Type) :
    PointBase.Lawful CoordinateType (stored_point CoordinateType) where
  get_construct_zero := fun _ _ => rfl
  get_construct_one := fun _ _ => rfl
  get_set_same := by
    intro K v p
    fin_cases K <;> rfl
  get_set_other := by
    intro K J v p hJK
    fin_cases K <;> fin_cases J <;> first | rfl | exact absurd rfl hJK

/-- C15: for `point_xy`, a point constructed with `(x, y)` returns `x` from `x()` and `y`
from `y()`; after the setter `x(v)`, `x()` returns `v` and `y()` is unchanged, and after
the setter `y(v)`, `y()` returns `v` and `x()` is unchanged; `x` is coordinate index 0
and `y` is coordinate index 1 of `traits::access`.  The base class `model::point`,
declared outside the sources, is any class whose `get` and `set` behave as stated
in `PointBase.Lawful`. -/
theorem point_xy_accessors {CoordinateType P : Type} [PointBase CoordinateType P]
    (hbase : PointBase.Lawful CoordinateType P) (x0 y0 v : CoordinateType) (p : point_xy P) :
    (point_xy.make x0 y0 : point_xy P).x = x0 ∧
      (point_xy.make x0 y0 : point_xy P).y = y0 ∧
      (p.set_x v).x = v ∧ ((p.set_x v).y : CoordinateType) = p.y ∧
      (p.set_y v).y = v ∧ ((p.set_y v).x : CoordinateType) = p.x ∧
      (traits.access.get 0 p : CoordinateType) = p.x ∧
      (traits.access.get 1 p : CoordinateType) = p.y ∧
      traits.access.set 0 p v = p.set_x v ∧
      traits.access.set 1 p v = p.set_y v :=
  ⟨hbase.get_construct_zero x0 y0, hbase.get_construct_one x0 y0,
    hbase.get_set_same 0 v p.point, hbase.get_set_other 0 1 v p.point (by decide),
    hbase.get_set_same 1 v p.point, hbase.get_set_other 1 0 v p.point (by decide),
    rfl, rfl, rfl, rfl⟩

/-- Witness of C15: the point (3, 4) over stored coordinates, with `x` set to 9. -/
theorem point_xy_accessors_witness :
    PointBase.Lawful Int (stored_point Int) ∧
      ((point_xy.make 3 4 : point_xy (stored_point Int)).set_x 9).x = 9 ∧
      ((point_xy.make 3 4 : point_xy (stored_point Int)).set_x 9).y = 4 :=
  ⟨stored_point_lawful Int,
    (point_xy_accessors (stored_point_lawful Int) 3 4 9
      (point_xy.make 3 4 : point_xy (stored_point Int))).2.2.1,
    (point_xy_accessors (stored_point_lawful Int) 3 4 9
      (point_xy.make 3 4 : point_xy (stored_point Int))).2.2.2.1.trans
      (point_xy_accessors (stored_point_lawful Int) 3 4 9
        (point_xy.make 3 4 : point_xy (stored_point Int))).2.1⟩

end Geometry
